import Mathlib

/-!
Verification of `src/fetch.py` (Weather Union batch fetcher).

The program loads a locality table and an API-key table, iterates the
localities calling a weather endpoint with the current key, rotates keys on a
quota signal (HTTP 429 mapped to the sentinel string QUOTA_LIMIT_REACHED) or
when a per-key call ceiling is reached, stops early when all keys are
exhausted, and writes the collected records as one CSV file.

External effects are modelled as oracles: the transport layer is a function
from the call sequence number to an `HttpResult`, and `datetime.now()` is a
function from the now-call sequence number to a `PyDateTime` (call 0 is the
run-start timestamp at the top of `fetch_and_save`, call `1 + k` is the
timestamp taken while building record `k`, and the final call after the loop
supplies the output-directory date).
-/

namespace WeatherUnion

/-!
Python values as they occur in this program: `None`, strings, numbers
(modelled as integers) and JSON-style dictionaries. `PyDict` is an ordered
association list, mirroring Python dict insertion order.
-/
mutual
inductive PyVal where
  | pynone : PyVal
  | str : String → PyVal
  | num : Int → PyVal
  | dict : PyDict → PyVal

inductive PyDict where
  | nil : PyDict
  | cons : String → PyVal → PyDict → PyDict
end

/-- Key membership test of a Python dict (`k in d` on a dict checks keys). -/
def PyDict.hasKey : PyDict → String → Bool
  | .nil, _ => false
  | .cons k _ rest, key => k == key || PyDict.hasKey rest key

/-- `d.get(k)`: the value stored under `k`, or Python `None` when absent. -/
def PyDict.get : PyDict → String → PyVal
  | .nil, _ => .pynone
  | .cons k v rest, key => if k == key then v else PyDict.get rest key

/-- `d[k]` where the program has already established `k in d`; absent keys
yield `None` in the model (Python would raise, a case the program never
reaches because it tests membership first). -/
def PyDict.getItem : PyDict → String → PyVal
  | .nil, _ => .pynone
  | .cons k v rest, key => if k == key then v else PyDict.getItem rest key

/-- `v[k]` on a value already known to satisfy `k in v`. -/
def PyVal.getItem (v : PyVal) (key : String) : PyVal :=
  match v with
  | .dict d => d.getItem key
  | _ => .pynone

def PyDict.isNil : PyDict → Bool
  | .nil => true
  | .cons _ _ _ => false

/-- Python truthiness: `None`, `""`, `0` and the empty dict are falsy. -/
def PyVal.truthy : PyVal → Bool
  | .pynone => false
  | .str s => !(s == "")
  | .num n => !(n == 0)
  | .dict d => !d.isNil

/-- `needle` occurs as a contiguous sublist of `hay`. -/
def charsInfix (needle : List Char) : List Char → Bool
  | [] => needle.isPrefixOf []
  | c :: rest => needle.isPrefixOf (c :: rest) || charsInfix needle rest

/-- Python `key in v`: key lookup on dicts, substring test on strings.
(On a truthy number Python would raise `TypeError`; the program only reaches
this test on JSON-decoded bodies, so the model returns `false` there.) -/
def PyVal.contains (v : PyVal) (key : String) : Bool :=
  match v with
  | .dict d => d.hasKey key
  | .str s => charsInfix key.toList s.toList
  | _ => false

/-- Python `data == 'QUOTA_LIMIT_REACHED'`: string equality; any non-string
value compares unequal to a string. -/
def isQuota : PyVal → Bool
  | .str s => s == "QUOTA_LIMIT_REACHED"
  | _ => false

/-- The condition `data and 'locality_weather_data' in data` of fetch.py. -/
def hasWeatherSection (data : PyVal) : Bool :=
  data.truthy && data.contains "locality_weather_data"

/-!
`pyStr v` is `str(v)` as the csv module renders a cell: `None` becomes the
empty field, strings pass through, numbers print, dicts print in Python repr
style (`pyRepr` / `pyDictRepr`).
-/
mutual
def pyStr : PyVal → String
  | .pynone => ""
  | .str s => s
  | .num n => toString n
  | .dict d => "\x7b" ++ pyDictRepr d ++ "\x7d"

def pyRepr : PyVal → String
  | .pynone => "None"
  | .str s => "\x27" ++ s ++ "\x27"
  | .num n => toString n
  | .dict d => "\x7b" ++ pyDictRepr d ++ "\x7d"

def pyDictRepr : PyDict → String
  | .nil => ""
  | .cons k v .nil => "\x27" ++ k ++ "\x27: " ++ pyRepr v
  | .cons k v (.cons k2 v2 rest) =>
      "\x27" ++ k ++ "\x27: " ++ pyRepr v ++ ", " ++ pyDictRepr (.cons k2 v2 rest)
end

/-- Result of the transport layer for one `requests.get` call: either a
response (status code plus JSON-decoded body) or a raised
`requests.RequestException`. -/
inductive HttpResult where
  | response : Nat → PyVal → HttpResult
  | requestException : HttpResult

/-- `get_weather_data` of fetch.py, as a function of the transport result.
(`station_id` and `api_key` shape only the request and the log lines, not the
classification of the response.) Returns the JSON body on HTTP 200, the
sentinel string on HTTP 429, and Python `None` (here `PyVal.pynone`) on any
other status or on a transport exception. -/
def get_weather_data : HttpResult → PyVal
  | .response 200 body => body
  | .response 429 _ => .str "QUOTA_LIMIT_REACHED"
  | .response _ _ => .pynone
  | .requestException => .pynone

/-- A row of the locality table as the loop consumes it: `row['localityId']`
plus the three display columns read with `row.get(col, '')`. -/
structure Locality where
  localityId : String
  localityName : String
  latitude : String
  longitude : String

/-- `datetime.now()` snapshot, to the precision the program formats. -/
structure PyDateTime where
  year : Nat
  month : Nat
  day : Nat
  hour : Nat
  minute : Nat
  second : Nat

def pad2 (n : Nat) : String :=
  if n < 10 then "0" ++ toString n else toString n

def pad4 (n : Nat) : String :=
  if n < 10 then "000" ++ toString n
  else if n < 100 then "00" ++ toString n
  else if n < 1000 then "0" ++ toString n
  else toString n

/-- `strftime("%Y%m%d")`. -/
def strftimeYmd (t : PyDateTime) : String :=
  pad4 t.year ++ pad2 t.month ++ pad2 t.day

/-- `strftime("%Y%m%d_%H%M")`. -/
def strftimeYmdHM (t : PyDateTime) : String :=
  strftimeYmd t ++ "_" ++ pad2 t.hour ++ pad2 t.minute

/-- `datetime.isoformat()` to second precision. -/
def isoformat (t : PyDateTime) : String :=
  pad4 t.year ++ "-" ++ pad2 t.month ++ "-" ++ pad2 t.day ++ "T" ++
    pad2 t.hour ++ ":" ++ pad2 t.minute ++ ":" ++ pad2 t.second

/-- The record dict built at lines 87-99 of fetch.py, fields in the literal's
insertion order. -/
structure WeatherRecord where
  stationId : String
  localityName : String
  latitude : String
  longitude : String
  obsDatetime : String
  temperature : PyVal
  humidity : PyVal
  windSpeed : PyVal
  windDirection : PyVal
  rainIntensity : PyVal
  totalRainfall : PyVal

/-- One HTTP call made by the loop: which station was queried and the value
of `key_idx` at the moment of the call. -/
structure Call where
  station : String
  keyIdx : Nat

/-- The mutable state of `fetch_and_save`'s loop: `key_idx`, `call_count`,
the accumulated `results`, and the trace of HTTP calls made so far (the
trace length is the index of the next transport-oracle query). -/
structure LoopState where
  keyIdx : Nat
  callCount : Nat
  results : List WeatherRecord
  trace : List Call

def initState : LoopState := ⟨0, 0, [], []⟩

/-- Run-wide parameters: the key list, `MAX_CALLS_PER_KEY` (a Python int;
kept as `Int` so degenerate non-positive configurations are representable),
the transport oracle and the wall clock oracle. -/
structure Config where
  api_keys : List String
  max_calls_per_key : Int
  transport : Nat → HttpResult
  clock : Nat → PyDateTime

/-- The value `data` takes on the `n`-th HTTP call of the run. -/
def dataAt (cfg : Config) (n : Nat) : PyVal :=
  get_weather_data (cfg.transport n)

/-- Lines 87-99 of fetch.py: build the record dict for a successful fetch.
`t` is the `datetime.now()` taken while building the record. -/
def mkRecord (loc : Locality) (t : PyDateTime) (data : PyVal) : WeatherRecord :=
  let w := data.getItem "locality_weather_data"
  { stationId := loc.localityId
    localityName := loc.localityName
    latitude := loc.latitude
    longitude := loc.longitude
    obsDatetime := isoformat t
    temperature := match w with | .dict d => d.get "temperature" | _ => .pynone
    humidity := match w with | .dict d => d.get "humidity" | _ => .pynone
    windSpeed := match w with | .dict d => d.get "wind_speed" | _ => .pynone
    windDirection := match w with | .dict d => d.get "wind_direction" | _ => .pynone
    rainIntensity := match w with | .dict d => d.get "rain_intensity" | _ => .pynone
    totalRainfall := match w with | .dict d => d.get "rain_accumulation" | _ => .pynone }

/-- Outcome of one iteration of the inner `while` body: `rotated` is the
`continue` after a quota signal (the loop retries the same locality),
`finished` is the `break` at the bottom of the body. -/
inductive StepRes where
  | rotated : LoopState → StepRes
  | finished : LoopState → StepRes

def StepRes.state : StepRes → LoopState
  | .rotated st => st
  | .finished st => st

/-- Lines 76-109 of fetch.py: one iteration of the inner `while` body,
entered with `key_idx < len(api_keys)` already checked. -/
def innerStep (cfg : Config) (loc : Locality) (st : LoopState) : StepRes :=
  let data := dataAt cfg st.trace.length
  let st1 : LoopState :=
    { st with trace := st.trace ++ [⟨loc.localityId, st.keyIdx⟩] }
  if isQuota data then
    .rotated { st1 with keyIdx := st1.keyIdx + 1, callCount := 0 }
  else
    let st2 : LoopState :=
      if hasWeatherSection data then
        { st1 with
          results := st1.results ++
            [mkRecord loc (cfg.clock (1 + st1.results.length)) data]
          callCount := st1.callCount + 1 }
      else st1
    if (st2.callCount : Int) ≥ cfg.max_calls_per_key then
      .finished { st2 with keyIdx := st2.keyIdx + 1, callCount := 0 }
    else
      .finished st2

/-- The inner `while key_idx < len(api_keys)` loop, with explicit fuel.
Every iteration either breaks or increments `key_idx`, so fuel
`len(api_keys) - key_idx` is exactly enough (proved below). -/
def runLocality (cfg : Config) (loc : Locality) : Nat → LoopState → LoopState
  | 0, st => st
  | fuel + 1, st =>
      if st.keyIdx < cfg.api_keys.length then
        match innerStep cfg loc st with
        | .rotated st' => runLocality cfg loc fuel st'
        | .finished st' => st'
      else st

/-- The whole inner `while` loop for one locality. -/
def processLocality (cfg : Config) (loc : Locality) (st : LoopState) : LoopState :=
  runLocality cfg loc (cfg.api_keys.length - st.keyIdx) st

/-- Lines 71-113 of fetch.py: the outer `for` over localities, with the
early `break` when `key_idx >= len(api_keys)` after each locality. -/
def fetchLoop (cfg : Config) : List Locality → LoopState → LoopState
  | [], st => st
  | loc :: rest, st =>
      let st' := processLocality cfg loc st
      if cfg.api_keys.length ≤ st'.keyIdx then st'
      else fetchLoop cfg rest st'

/-! CSV writer (lines 121-124): `csv.DictWriter` with default dialect —
delimiter `,`, quotechar a double quote, QUOTE_MINIMAL, each row terminated
by CRLF. A cell is quoted only when it contains a delimiter, quote or
newline character. -/

/-- The csv module quotes a cell iff it contains `,`, a double quote, CR or
LF (QUOTE_MINIMAL); a character scan of the cell. -/
def needsQuote (s : String) : Bool :=
  s.data.any (fun c => c == ',' || c == '"' || c == '\r' || c == '\n')

/-- Quotechar doubling: each double quote inside a quoted cell is written
twice. -/
def doubleQuotes : List Char → List Char
  | [] => []
  | c :: rest =>
      if c == '"' then c :: c :: doubleQuotes rest else c :: doubleQuotes rest

/-- Encode one cell: double internal quotes and wrap when quoting is
needed, otherwise the cell is written verbatim. -/
def csvQuote (s : String) : String :=
  if needsQuote s then "\"" ++ String.mk (doubleQuotes s.data) ++ "\"" else s

/-- One CSV row (without its CRLF terminator). -/
def csvRowStr (cells : List String) : String :=
  String.intercalate "," (cells.map csvQuote)

/-- The keys of the record dict literal, in insertion order: this is
`list(results[0].keys())` whenever `results` is nonempty. -/
def recordFieldOrder : List String :=
  ["Station ID", "Locality Name", "Latitude", "Longitude",
   "Observation Datetime", "Temperature", "Humidity", "Wind Speed",
   "Wind Direction", "Rain Intensity", "Total Rainfall"]

/-- The cell strings of one record, in `recordFieldOrder` order, each the
csv module's `str()` rendering of the dict value. -/
def recordCells (r : WeatherRecord) : List String :=
  [r.stationId, r.localityName, r.latitude, r.longitude, r.obsDatetime,
   pyStr r.temperature, pyStr r.humidity, pyStr r.windSpeed,
   pyStr r.windDirection, pyStr r.rainIntensity, pyStr r.totalRainfall]

def recordRowStr (r : WeatherRecord) : String :=
  csvRowStr (recordCells r)

/-- `fieldnames=list(results[0].keys()) if results else []`. -/
def fieldnamesOf (results : List WeatherRecord) : List String :=
  if results.isEmpty then [] else recordFieldOrder

/-- The physical rows of the output file: header row first, then one row per
record in collection order. -/
def csvLinesOf (results : List WeatherRecord) : List String :=
  csvRowStr (fieldnamesOf results) :: results.map recordRowStr

/-! Reference data loader. A loaded table is a list of rows, each an
association list from column name to cell string. The filesystem is an
oracle from path to optional table; `pd.read_csv` on a missing path raises
`FileNotFoundError`, which `load_csv` logs and re-raises (modelled as
`Except.error`). -/

abbrev CsvTable := List (List (String × String))

/-- `load_csv` of fetch.py (lines 35-40). -/
def load_csv (fs : String → Option CsvTable) (path : String) :
    Except String CsvTable :=
  match fs path with
  | some t => .ok t
  | none => .error ("CSV file not found: " ++ path)

/-- `row.get(col, dflt)` on a table row. -/
def rowGet (row : List (String × String)) (col : String) (dflt : String) : String :=
  match row.find? (fun p => p.1 == col) with
  | some p => p.2
  | none => dflt

/-- The locality the loop extracts from one table row (lines 72, 88-91). -/
def localityOfRow (row : List (String × String)) : Locality :=
  { localityId := rowGet row "localityId" ""
    localityName := rowGet row "localityName" ""
    latitude := rowGet row "latitude" ""
    longitude := rowGet row "longitude" "" }

/-- What a completed run produced: the output path, the physical CSV rows,
and the final loop state (records and HTTP-call trace). -/
structure RunOutput where
  outFile : String
  csvLines : List String
  final : LoopState

/-- `fetch_and_save` of fetch.py (lines 61-127). Loads the two tables
(propagating the missing-file error), runs the collection loop, and writes
the CSV to `output_base_dir/<YYYYMMDD>/weather_data_<YYYYMMDD_HHMM>.csv`.
The filename timestamp is `clock 0` (line 69, before the loop); the
directory date is the `datetime.now()` taken at line 116 after the loop,
which is now-call number `1 + N` for `N` collected records. -/
def fetch_and_save (fs : String → Option CsvTable)
    (locations_csv api_keys_csv output_base_dir : String)
    (max_calls_per_key : Int) (transport : Nat → HttpResult)
    (clock : Nat → PyDateTime) : Except String RunOutput :=
  match load_csv fs locations_csv with
  | .error e => .error e
  | .ok locTable =>
    match load_csv fs api_keys_csv with
    | .error e => .error e
    | .ok keyTable =>
      let locations := locTable.map localityOfRow
      let api_keys := keyTable.map (fun row => rowGet row "API_KEY" "")
      let cfg : Config := ⟨api_keys, max_calls_per_key, transport, clock⟩
      let timestamp := strftimeYmdHM (clock 0)
      let final := fetchLoop cfg locations initState
      let date_dir := strftimeYmd (clock (1 + final.results.length))
      let out_file := output_base_dir ++ "/" ++ date_dir ++
        "/weather_data_" ++ timestamp ++ ".csv"
      .ok ⟨out_file, csvLinesOf final.results, final⟩

/-! Specification vocabulary: classification of a decoded response body. -/

/-- A 200 body that yields a record: a JSON object containing the
`locality_weather_data` section. -/
def isSuccessPayload : PyVal → Bool
  | .dict d => d.hasKey "locality_weather_data"
  | _ => false

/-- A no-data outcome for a locality: the `None` returned on a non-200
status or transport error, or a 200 JSON object lacking the
`locality_weather_data` section. -/
def isNoDataPayload : PyVal → Bool
  | .pynone => true
  | .dict d => !d.hasKey "locality_weather_data"
  | _ => false

theorem hasKey_ne_nil {d : PyDict} (h : d.hasKey "locality_weather_data" = true) :
    d.isNil = false := by
  cases d with
  | nil => simp [PyDict.hasKey] at h
  | cons k v rest => rfl

theorem isSuccessPayload_spec {d : PyVal} (h : isSuccessPayload d = true) :
    isQuota d = false ∧ hasWeatherSection d = true := by
  cases d with
  | dict es =>
      refine ⟨rfl, ?_⟩
      simp only [isSuccessPayload] at h
      simp [hasWeatherSection, PyVal.truthy, PyVal.contains, hasKey_ne_nil h, h]
  | pynone => simp [isSuccessPayload] at h
  | str s => simp [isSuccessPayload] at h
  | num n => simp [isSuccessPayload] at h

theorem isNoDataPayload_spec {d : PyVal} (h : isNoDataPayload d = true) :
    isQuota d = false ∧ hasWeatherSection d = false := by
  cases d with
  | pynone => exact ⟨rfl, rfl⟩
  | dict es =>
      refine ⟨rfl, ?_⟩
      simp only [isNoDataPayload, Bool.not_eq_true'] at h
      simp [hasWeatherSection, PyVal.contains, h]
  | str s => simp [isNoDataPayload] at h
  | num n => simp [isNoDataPayload] at h

/-! Branch equations for one iteration of the inner `while` body. -/

theorem innerStep_quota (cfg : Config) (loc : Locality) (st : LoopState)
    (hq : isQuota (dataAt cfg st.trace.length) = true) :
    innerStep cfg loc st =
      .rotated ⟨st.keyIdx + 1, 0, st.results,
        st.trace ++ [⟨loc.localityId, st.keyIdx⟩]⟩ := by
  simp [innerStep, hq]

theorem innerStep_nodata (cfg : Config) (loc : Locality) (st : LoopState)
    (hq : isQuota (dataAt cfg st.trace.length) = false)
    (hw : hasWeatherSection (dataAt cfg st.trace.length) = false)
    (hc : (st.callCount : Int) < cfg.max_calls_per_key) :
    innerStep cfg loc st =
      .finished ⟨st.keyIdx, st.callCount, st.results,
        st.trace ++ [⟨loc.localityId, st.keyIdx⟩]⟩ := by
  simp [innerStep, hq, hw, not_le.mpr hc]

theorem innerStep_nodata_ceiling (cfg : Config) (loc : Locality) (st : LoopState)
    (hq : isQuota (dataAt cfg st.trace.length) = false)
    (hw : hasWeatherSection (dataAt cfg st.trace.length) = false)
    (hc : (st.callCount : Int) ≥ cfg.max_calls_per_key) :
    innerStep cfg loc st =
      .finished ⟨st.keyIdx + 1, 0, st.results,
        st.trace ++ [⟨loc.localityId, st.keyIdx⟩]⟩ := by
  simp [innerStep, hq, hw, hc]

theorem innerStep_success (cfg : Config) (loc : Locality) (st : LoopState)
    (hq : isQuota (dataAt cfg st.trace.length) = false)
    (hw : hasWeatherSection (dataAt cfg st.trace.length) = true)
    (hc : (st.callCount : Int) + 1 < cfg.max_calls_per_key) :
    innerStep cfg loc st =
      .finished ⟨st.keyIdx, st.callCount + 1,
        st.results ++ [mkRecord loc (cfg.clock (1 + st.results.length))
          (dataAt cfg st.trace.length)],
        st.trace ++ [⟨loc.localityId, st.keyIdx⟩]⟩ := by
  have : ¬ ((st.callCount : Int) + 1 ≥ cfg.max_calls_per_key) := not_le.mpr hc
  simp [innerStep, hq, hw]
  omega

theorem innerStep_success_ceiling (cfg : Config) (loc : Locality) (st : LoopState)
    (hq : isQuota (dataAt cfg st.trace.length) = false)
    (hw : hasWeatherSection (dataAt cfg st.trace.length) = true)
    (hc : (st.callCount : Int) + 1 ≥ cfg.max_calls_per_key) :
    innerStep cfg loc st =
      .finished ⟨st.keyIdx + 1, 0,
        st.results ++ [mkRecord loc (cfg.clock (1 + st.results.length))
          (dataAt cfg st.trace.length)],
        st.trace ++ [⟨loc.localityId, st.keyIdx⟩]⟩ := by
  simp [innerStep, hq, hw]
  omega

/-! Generic shape facts about one iteration, derived from the branch
equations by case analysis on the response classification. -/

/-- Exhaustive case analysis of one iteration: quota rotation, no-data
(with or without ceiling rotation), or success (with or without ceiling
rotation). In every case exactly one call is traced, made with the current
key. -/
theorem innerStep_cases (cfg : Config) (loc : Locality) (st : LoopState) :
    innerStep cfg loc st = .rotated ⟨st.keyIdx + 1, 0, st.results,
        st.trace ++ [⟨loc.localityId, st.keyIdx⟩]⟩ ∨
    innerStep cfg loc st = .finished ⟨st.keyIdx, st.callCount, st.results,
        st.trace ++ [⟨loc.localityId, st.keyIdx⟩]⟩ ∨
    innerStep cfg loc st = .finished ⟨st.keyIdx + 1, 0, st.results,
        st.trace ++ [⟨loc.localityId, st.keyIdx⟩]⟩ ∨
    innerStep cfg loc st = .finished ⟨st.keyIdx, st.callCount + 1,
        st.results ++ [mkRecord loc (cfg.clock (1 + st.results.length))
          (dataAt cfg st.trace.length)],
        st.trace ++ [⟨loc.localityId, st.keyIdx⟩]⟩ ∨
    innerStep cfg loc st = .finished ⟨st.keyIdx + 1, 0,
        st.results ++ [mkRecord loc (cfg.clock (1 + st.results.length))
          (dataAt cfg st.trace.length)],
        st.trace ++ [⟨loc.localityId, st.keyIdx⟩]⟩ := by
  by_cases hq : isQuota (dataAt cfg st.trace.length) = true
  · exact Or.inl (innerStep_quota cfg loc st hq)
  · have hq2 : isQuota (dataAt cfg st.trace.length) = false := by simpa using hq
    by_cases hw : hasWeatherSection (dataAt cfg st.trace.length) = true
    · rcases lt_or_ge ((st.callCount : Int) + 1) cfg.max_calls_per_key with hc | hc
      · exact Or.inr (Or.inr (Or.inr (Or.inl
          (innerStep_success cfg loc st hq2 hw hc))))
      · exact Or.inr (Or.inr (Or.inr (Or.inr
          (innerStep_success_ceiling cfg loc st hq2 hw hc))))
    · have hw2 : hasWeatherSection (dataAt cfg st.trace.length) = false := by
        simpa using hw
      rcases lt_or_ge ((st.callCount : Int)) cfg.max_calls_per_key with hc | hc
      · exact Or.inr (Or.inl (innerStep_nodata cfg loc st hq2 hw2 hc))
      · exact Or.inr (Or.inr (Or.inl (innerStep_nodata_ceiling cfg loc st hq2 hw2 hc)))

/-- Every iteration makes exactly one HTTP call, with the current key. -/
theorem innerStep_trace (cfg : Config) (loc : Locality) (st : LoopState) :
    (innerStep cfg loc st).state.trace =
      st.trace ++ [⟨loc.localityId, st.keyIdx⟩] := by
  rcases innerStep_cases cfg loc st with h | h | h | h | h <;> rw [h] <;> rfl

/-- The key index never decreases, and grows by at most one per call. -/
theorem innerStep_keyIdx (cfg : Config) (loc : Locality) (st : LoopState) :
    st.keyIdx ≤ (innerStep cfg loc st).state.keyIdx ∧
    (innerStep cfg loc st).state.keyIdx ≤ st.keyIdx + 1 := by
  rcases innerStep_cases cfg loc st with h | h | h | h | h <;> rw [h] <;>
    exact ⟨by simp [StepRes.state], by simp [StepRes.state]⟩

/-- Results only grow, by at most one record per call. -/
theorem innerStep_results (cfg : Config) (loc : Locality) (st : LoopState) :
    (innerStep cfg loc st).state.results = st.results ∨
    ∃ r, (innerStep cfg loc st).state.results = st.results ++ [r] := by
  rcases innerStep_cases cfg loc st with h | h | h | h | h <;> rw [h]
  · exact Or.inl rfl
  · exact Or.inl rfl
  · exact Or.inl rfl
  · exact Or.inr ⟨_, rfl⟩
  · exact Or.inr ⟨_, rfl⟩

/-- Whenever the key index advances, the call counter is reset to 0. -/
theorem innerStep_advance_resets (cfg : Config) (loc : Locality) (st : LoopState)
    (h : (innerStep cfg loc st).state.keyIdx ≠ st.keyIdx) :
    (innerStep cfg loc st).state.callCount = 0 := by
  rcases innerStep_cases cfg loc st with hs | hs | hs | hs | hs <;> rw [hs]
  · rfl
  · rw [hs] at h; exact absurd rfl h
  · rfl
  · rw [hs] at h; exact absurd rfl h
  · rfl

/-- The counter is incremented (rather than kept or reset) only when a
record was appended on this iteration. -/
theorem innerStep_count_incr (cfg : Config) (loc : Locality) (st : LoopState)
    (h : (innerStep cfg loc st).state.callCount = st.callCount + 1) :
    (innerStep cfg loc st).state.results.length = st.results.length + 1 := by
  rcases innerStep_cases cfg loc st with hs | hs | hs | hs | hs <;>
    rw [hs] at h ⊢ <;> simp only [StepRes.state] at h ⊢
  · omega
  · omega
  · omega
  · simp
  · omega

/-- A `rotated` outcome is exactly the quota branch: key advanced by one,
counter reset, no record, one traced call. -/
theorem innerStep_rotated_eq (cfg : Config) (loc : Locality) (st st' : LoopState)
    (h : innerStep cfg loc st = .rotated st') :
    st' = ⟨st.keyIdx + 1, 0, st.results,
      st.trace ++ [⟨loc.localityId, st.keyIdx⟩]⟩ := by
  rcases innerStep_cases cfg loc st with hs | hs | hs | hs | hs <;> rw [hs] at h
  · injection h with h2
    exact h2.symm
  · cases h
  · cases h
  · cases h
  · cases h

/-- Definitional unfolding of `processLocality`. -/
theorem processLocality_def (cfg : Config) (loc : Locality) (st : LoopState) :
    processLocality cfg loc st =
      runLocality cfg loc (cfg.api_keys.length - st.keyIdx) st := rfl

/-- Definitional unfolding of `runLocality` at positive fuel. -/
theorem runLocality_succ (cfg : Config) (loc : Locality) (fuel : Nat)
    (st : LoopState) :
    runLocality cfg loc (fuel + 1) st =
      if st.keyIdx < cfg.api_keys.length then
        match innerStep cfg loc st with
        | .rotated st' => runLocality cfg loc fuel st'
        | .finished st' => st'
      else st := rfl

/-- One unfolding of the inner `while` loop: with keys remaining, run one
iteration; on `rotated` keep looping, on `finished` stop. -/
theorem processLocality_unfold (cfg : Config) (loc : Locality) (st : LoopState) :
    processLocality cfg loc st =
      if st.keyIdx < cfg.api_keys.length then
        match innerStep cfg loc st with
        | .rotated st' => processLocality cfg loc st'
        | .finished st' => st'
      else st := by
  by_cases h : st.keyIdx < cfg.api_keys.length
  · rw [if_pos h]
    have hf : cfg.api_keys.length - st.keyIdx =
        (cfg.api_keys.length - (st.keyIdx + 1)) + 1 := by omega
    rw [processLocality_def, hf, runLocality_succ, if_pos h]
    cases hstep : innerStep cfg loc st with
    | rotated st' =>
        have hk : st'.keyIdx = st.keyIdx + 1 :=
          congrArg LoopState.keyIdx (innerStep_rotated_eq cfg loc st st' hstep)
        show runLocality cfg loc (cfg.api_keys.length - (st.keyIdx + 1)) st' =
          processLocality cfg loc st'
        rw [processLocality_def, hk]
    | finished st' => rfl
  · rw [if_neg h, processLocality_def]
    have hf : cfg.api_keys.length - st.keyIdx = 0 := by omega
    rw [hf]
    rfl

/-- With the keys exhausted the inner loop is a no-op. -/
theorem processLocality_exhausted (cfg : Config) (loc : Locality) (st : LoopState)
    (h : cfg.api_keys.length ≤ st.keyIdx) :
    processLocality cfg loc st = st := by
  rw [processLocality_unfold, if_neg (not_lt.mpr h)]

/-- With the keys exhausted the outer loop stops at once. -/
theorem fetchLoop_exhausted (cfg : Config) (locs : List Locality) (st : LoopState)
    (h : cfg.api_keys.length ≤ st.keyIdx) :
    fetchLoop cfg locs st = st := by
  cases locs with
  | nil => rfl
  | cons loc rest =>
      unfold fetchLoop
      rw [processLocality_exhausted cfg loc st h, if_pos h]
/-! Loop-level preservation lemmas. -/

theorem runLocality_keyIdx_mono (cfg : Config) (loc : Locality) :
    ∀ fuel st, st.keyIdx ≤ (runLocality cfg loc fuel st).keyIdx := by
  intro fuel
  induction fuel with
  | zero => intro st; exact le_refl _
  | succ n ih =>
      intro st
      rw [runLocality_succ]
      by_cases h : st.keyIdx < cfg.api_keys.length
      · rw [if_pos h]
        cases hstep : innerStep cfg loc st with
        | rotated st' =>
            have h1 := (innerStep_keyIdx cfg loc st).1
            rw [hstep] at h1
            exact le_trans h1 (ih st')
        | finished st' =>
            have h1 := (innerStep_keyIdx cfg loc st).1
            rw [hstep] at h1
            exact h1
      · rw [if_neg h]

theorem runLocality_keyIdx_le (cfg : Config) (loc : Locality) :
    ∀ fuel st, st.keyIdx ≤ cfg.api_keys.length →
      (runLocality cfg loc fuel st).keyIdx ≤ cfg.api_keys.length := by
  intro fuel
  induction fuel with
  | zero => intro st h; exact h
  | succ n ih =>
      intro st h
      rw [runLocality_succ]
      by_cases hg : st.keyIdx < cfg.api_keys.length
      · rw [if_pos hg]
        cases hstep : innerStep cfg loc st with
        | rotated st' =>
            have h2 := (innerStep_keyIdx cfg loc st).2
            rw [hstep] at h2
            simp only [StepRes.state] at h2
            exact ih st' (by omega)
        | finished st' =>
            have h2 := (innerStep_keyIdx cfg loc st).2
            rw [hstep] at h2
            simp only [StepRes.state] at h2
            show st'.keyIdx ≤ cfg.api_keys.length
            omega
      · rw [if_neg hg]
        exact h

theorem processLocality_keyIdx_mono (cfg : Config) (loc : Locality) (st : LoopState) :
    st.keyIdx ≤ (processLocality cfg loc st).keyIdx :=
  runLocality_keyIdx_mono cfg loc _ st

theorem processLocality_keyIdx_le (cfg : Config) (loc : Locality) (st : LoopState)
    (h : st.keyIdx ≤ cfg.api_keys.length) :
    (processLocality cfg loc st).keyIdx ≤ cfg.api_keys.length :=
  runLocality_keyIdx_le cfg loc _ st h

theorem fetchLoop_keyIdx_mono (cfg : Config) :
    ∀ locs st, st.keyIdx ≤ (fetchLoop cfg locs st).keyIdx := by
  intro locs
  induction locs with
  | nil => intro st; exact le_refl _
  | cons loc rest ih =>
      intro st
      show st.keyIdx ≤ (if cfg.api_keys.length ≤ (processLocality cfg loc st).keyIdx
        then processLocality cfg loc st
        else fetchLoop cfg rest (processLocality cfg loc st)).keyIdx
      by_cases h : cfg.api_keys.length ≤ (processLocality cfg loc st).keyIdx
      · rw [if_pos h]
        exact processLocality_keyIdx_mono cfg loc st
      · rw [if_neg h]
        exact le_trans (processLocality_keyIdx_mono cfg loc st) (ih _)

theorem fetchLoop_keyIdx_le (cfg : Config) :
    ∀ locs st, st.keyIdx ≤ cfg.api_keys.length →
      (fetchLoop cfg locs st).keyIdx ≤ cfg.api_keys.length := by
  intro locs
  induction locs with
  | nil => intro st h; exact h
  | cons loc rest ih =>
      intro st h
      show (if cfg.api_keys.length ≤ (processLocality cfg loc st).keyIdx
        then processLocality cfg loc st
        else fetchLoop cfg rest (processLocality cfg loc st)).keyIdx ≤ _
      by_cases hg : cfg.api_keys.length ≤ (processLocality cfg loc st).keyIdx
      · rw [if_pos hg]
        exact processLocality_keyIdx_le cfg loc st h
      · rw [if_neg hg]
        exact ih _ (processLocality_keyIdx_le cfg loc st h)

/-- The call-counter invariant: strictly below the per-key ceiling. It holds
initially whenever the ceiling is at least 1 and is preserved by every
iteration, so the ceiling check at the bottom of the loop body can only fire
on the iteration that appended a record. -/
def CountInv (cfg : Config) (st : LoopState) : Prop :=
  (st.callCount : Int) < cfg.max_calls_per_key

theorem innerStep_countInv (cfg : Config) (loc : Locality) (st : LoopState)
    (hmax : 1 ≤ cfg.max_calls_per_key) (h : CountInv cfg st) :
    CountInv cfg (innerStep cfg loc st).state := by
  by_cases hq : isQuota (dataAt cfg st.trace.length) = true
  · rw [innerStep_quota cfg loc st hq]
    show ((0 : Nat) : Int) < cfg.max_calls_per_key
    omega
  · have hq2 : isQuota (dataAt cfg st.trace.length) = false := by simpa using hq
    by_cases hw : hasWeatherSection (dataAt cfg st.trace.length) = true
    · rcases lt_or_ge ((st.callCount : Int) + 1) cfg.max_calls_per_key with hc | hc
      · rw [innerStep_success cfg loc st hq2 hw hc]
        show ((st.callCount + 1 : Nat) : Int) < cfg.max_calls_per_key
        push_cast
        omega
      · rw [innerStep_success_ceiling cfg loc st hq2 hw hc]
        show ((0 : Nat) : Int) < cfg.max_calls_per_key
        omega
    · have hw2 : hasWeatherSection (dataAt cfg st.trace.length) = false := by
        simpa using hw
      rcases lt_or_ge ((st.callCount : Int)) cfg.max_calls_per_key with hc | hc
      · rw [innerStep_nodata cfg loc st hq2 hw2 hc]
        exact h
      · rw [innerStep_nodata_ceiling cfg loc st hq2 hw2 hc]
        show ((0 : Nat) : Int) < cfg.max_calls_per_key
        omega

theorem runLocality_countInv (cfg : Config) (loc : Locality)
    (hmax : 1 ≤ cfg.max_calls_per_key) :
    ∀ fuel st, CountInv cfg st → CountInv cfg (runLocality cfg loc fuel st) := by
  intro fuel
  induction fuel with
  | zero => intro st h; exact h
  | succ n ih =>
      intro st h
      rw [runLocality_succ]
      by_cases hg : st.keyIdx < cfg.api_keys.length
      · rw [if_pos hg]
        have hstep := innerStep_countInv cfg loc st hmax h
        cases he : innerStep cfg loc st with
        | rotated st' =>
            rw [he] at hstep
            exact ih st' hstep
        | finished st' =>
            rw [he] at hstep
            exact hstep
      · rw [if_neg hg]
        exact h

theorem fetchLoop_countInv (cfg : Config) (hmax : 1 ≤ cfg.max_calls_per_key) :
    ∀ locs st, CountInv cfg st → CountInv cfg (fetchLoop cfg locs st) := by
  intro locs
  induction locs with
  | nil => intro st h; exact h
  | cons loc rest ih =>
      intro st h
      have h1 : CountInv cfg (processLocality cfg loc st) :=
        runLocality_countInv cfg loc hmax _ st h
      show CountInv cfg (if cfg.api_keys.length ≤ (processLocality cfg loc st).keyIdx
        then processLocality cfg loc st
        else fetchLoop cfg rest (processLocality cfg loc st))
      by_cases hg : cfg.api_keys.length ≤ (processLocality cfg loc st).keyIdx
      · rw [if_pos hg]; exact h1
      · rw [if_neg hg]; exact ih _ h1

/-! Key-usage monotonicity: the sequence of key indices used by the HTTP
calls of a run is non-decreasing, and every call so far used a key index at
most the current one — once the index has advanced past a key, that key is
never used again. -/

/-- The key indices used by the calls made so far, in call order. -/
def traceKeys (st : LoopState) : List Nat :=
  st.trace.map (fun c => c.keyIdx)

/-- Monotone key usage: calls so far used non-decreasing key indices, all at
most the current index. -/
def KeyMono (st : LoopState) : Prop :=
  List.Sorted (· ≤ ·) (traceKeys st) ∧ ∀ c ∈ st.trace, c.keyIdx ≤ st.keyIdx

theorem initState_keyMono : KeyMono initState :=
  ⟨List.sorted_nil, fun c hc => absurd hc (List.not_mem_nil c)⟩

/-- Appending one call at the current key, then moving to a key index at
least as large, preserves monotone key usage. -/
theorem keyMono_step (st st' : LoopState) (loc : Locality)
    (htr : st'.trace = st.trace ++ [⟨loc.localityId, st.keyIdx⟩])
    (hk : st.keyIdx ≤ st'.keyIdx) (h : KeyMono st) : KeyMono st' := by
  constructor
  · show List.Sorted (· ≤ ·) (st'.trace.map fun c => c.keyIdx)
    rw [htr, List.map_append]
    rw [List.Sorted, List.pairwise_append]
    refine ⟨h.1, List.sorted_singleton _, ?_⟩
    intro x hx y hy
    rcases List.mem_map.mp hx with ⟨c, hc, rfl⟩
    rcases List.mem_map.mp hy with ⟨e, he, rfl⟩
    rw [List.mem_singleton.mp he]
    exact h.2 c hc
  · intro c hc
    rw [htr] at hc
    rcases List.mem_append.mp hc with hc | hc
    · exact le_trans (h.2 c hc) hk
    · rw [List.mem_singleton.mp hc]
      exact hk

theorem innerStep_keyMono (cfg : Config) (loc : Locality) (st : LoopState)
    (h : KeyMono st) : KeyMono (innerStep cfg loc st).state := by
  rcases innerStep_cases cfg loc st with hs | hs | hs | hs | hs <;> rw [hs] <;>
    exact keyMono_step st _ loc rfl (by simp [StepRes.state]) h

theorem runLocality_keyMono (cfg : Config) (loc : Locality) :
    ∀ fuel st, KeyMono st → KeyMono (runLocality cfg loc fuel st) := by
  intro fuel
  induction fuel with
  | zero => intro st h; exact h
  | succ n ih =>
      intro st h
      rw [runLocality_succ]
      by_cases hg : st.keyIdx < cfg.api_keys.length
      · rw [if_pos hg]
        have hstep := innerStep_keyMono cfg loc st h
        cases he : innerStep cfg loc st with
        | rotated st' =>
            rw [he] at hstep
            exact ih st' hstep
        | finished st' =>
            rw [he] at hstep
            exact hstep
      · rw [if_neg hg]
        exact h

theorem fetchLoop_keyMono (cfg : Config) :
    ∀ locs st, KeyMono st → KeyMono (fetchLoop cfg locs st) := by
  intro locs
  induction locs with
  | nil => intro st h; exact h
  | cons loc rest ih =>
      intro st h
      have h1 : KeyMono (processLocality cfg loc st) :=
        runLocality_keyMono cfg loc _ st h
      show KeyMono (if cfg.api_keys.length ≤ (processLocality cfg loc st).keyIdx
        then processLocality cfg loc st
        else fetchLoop cfg rest (processLocality cfg loc st))
      by_cases hg : cfg.api_keys.length ≤ (processLocality cfg loc st).keyIdx
      · rw [if_pos hg]; exact h1
      · rw [if_neg hg]; exact ih _ h1

/-! Termination and call-count bounds. -/

theorem runLocality_zero (cfg : Config) (loc : Locality) (st : LoopState) :
    runLocality cfg loc 0 st = st := rfl

theorem fetchLoop_nil (cfg : Config) (st : LoopState) :
    fetchLoop cfg [] st = st := rfl

theorem fetchLoop_cons (cfg : Config) (loc : Locality) (rest : List Locality)
    (st : LoopState) :
    fetchLoop cfg (loc :: rest) st =
      if cfg.api_keys.length ≤ (processLocality cfg loc st).keyIdx
      then processLocality cfg loc st
      else fetchLoop cfg rest (processLocality cfg loc st) := rfl

/-- Per locality, the number of HTTP calls is at most one more than the
number of key advances: every iteration either breaks out of the inner loop
or advances the key index. -/
theorem runLocality_calls (cfg : Config) (loc : Locality) :
    ∀ fuel st, (runLocality cfg loc fuel st).trace.length + st.keyIdx ≤
      st.trace.length + (runLocality cfg loc fuel st).keyIdx + 1 := by
  intro fuel
  induction fuel with
  | zero => intro st; rw [runLocality_zero]; omega
  | succ n ih =>
      intro st
      rw [runLocality_succ]
      by_cases hg : st.keyIdx < cfg.api_keys.length
      · rw [if_pos hg]
        rcases innerStep_cases cfg loc st with hs | hs | hs | hs | hs <;> rw [hs] <;>
          simp only [List.length_append, List.length_cons, List.length_nil]
        · have := ih ⟨st.keyIdx + 1, 0, st.results,
            st.trace ++ [⟨loc.localityId, st.keyIdx⟩]⟩
          simp only [List.length_append, List.length_cons, List.length_nil] at this
          omega
        · omega
        · omega
        · omega
        · omega
      · rw [if_neg hg]
        omega

theorem fetchLoop_calls (cfg : Config) :
    ∀ locs st, (fetchLoop cfg locs st).trace.length + st.keyIdx ≤
      st.trace.length + locs.length + (fetchLoop cfg locs st).keyIdx := by
  intro locs
  induction locs with
  | nil => intro st; rw [fetchLoop_nil]; omega
  | cons loc rest ih =>
      intro st
      have h1 := runLocality_calls cfg loc (cfg.api_keys.length - st.keyIdx) st
      have h2 := processLocality_keyIdx_mono cfg loc st
      rw [← processLocality_def] at h1
      rw [fetchLoop_cons]
      by_cases hg : cfg.api_keys.length ≤ (processLocality cfg loc st).keyIdx
      · rw [if_pos hg]
        simp only [List.length_cons]
        omega
      · rw [if_neg hg]
        have h3 := ih (processLocality cfg loc st)
        simp only [List.length_cons]
        omega

/-- Fuel sufficiency for the inner loop: any fuel at least the number of
remaining keys computes the loop's final state, so the `while` terminates
within `len(api_keys) - key_idx` iterations plus the final guard check. -/
theorem runLocality_stable (cfg : Config) (loc : Locality) :
    ∀ fuel st, cfg.api_keys.length - st.keyIdx ≤ fuel →
      runLocality cfg loc fuel st = processLocality cfg loc st := by
  intro fuel
  induction fuel with
  | zero =>
      intro st h
      have hx : cfg.api_keys.length ≤ st.keyIdx := by omega
      rw [processLocality_exhausted cfg loc st hx]
      rfl
  | succ n ih =>
      intro st h
      rw [runLocality_succ, processLocality_unfold]
      by_cases hg : st.keyIdx < cfg.api_keys.length
      · rw [if_pos hg, if_pos hg]
        cases hstep : innerStep cfg loc st with
        | rotated st' =>
            have hk : st'.keyIdx = st.keyIdx + 1 :=
              congrArg LoopState.keyIdx (innerStep_rotated_eq cfg loc st st' hstep)
            exact ih st' (by omega)
        | finished st' => rfl
      · rw [if_neg hg, if_neg hg]

/-! Trace extension: the inner loop only appends to the call trace, and the
first call it makes uses the current key. -/

theorem runLocality_trace_ext (cfg : Config) (loc : Locality) :
    ∀ fuel st, ∃ tl, (runLocality cfg loc fuel st).trace = st.trace ++ tl := by
  intro fuel
  induction fuel with
  | zero => intro st; exact ⟨[], by rw [runLocality_zero, List.append_nil]⟩
  | succ n ih =>
      intro st
      rw [runLocality_succ]
      by_cases hg : st.keyIdx < cfg.api_keys.length
      · rw [if_pos hg]
        have htr := innerStep_trace cfg loc st
        cases he : innerStep cfg loc st with
        | rotated st' =>
            rw [he] at htr
            simp only [StepRes.state] at htr
            obtain ⟨tl, htl⟩ := ih st'
            exact ⟨[⟨loc.localityId, st.keyIdx⟩] ++ tl, by
              rw [htl, htr, List.append_assoc]⟩
        | finished st' =>
            rw [he] at htr
            simp only [StepRes.state] at htr
            exact ⟨[⟨loc.localityId, st.keyIdx⟩], htr⟩
      · rw [if_neg hg]
        exact ⟨[], (List.append_nil st.trace).symm⟩

/-- With keys remaining, the first HTTP call made for a locality uses the
current key index. -/
theorem processLocality_trace_head (cfg : Config) (loc : Locality) (st : LoopState)
    (hg : st.keyIdx < cfg.api_keys.length) :
    ∃ tl, (processLocality cfg loc st).trace =
      st.trace ++ (⟨loc.localityId, st.keyIdx⟩ : Call) :: tl := by
  rw [processLocality_unfold, if_pos hg]
  have htr := innerStep_trace cfg loc st
  cases he : innerStep cfg loc st with
  | rotated st' =>
      rw [he] at htr
      simp only [StepRes.state] at htr
      obtain ⟨tl, htl⟩ := runLocality_trace_ext cfg loc
        (cfg.api_keys.length - st'.keyIdx) st'
      rw [← processLocality_def] at htl
      exact ⟨tl, by rw [htl, htr, List.append_assoc]; rfl⟩
  | finished st' =>
      rw [he] at htr
      simp only [StepRes.state] at htr
      exact ⟨[], htr⟩

/-! The rotation scenario of claim C1: starting anywhere in a run, if the
next `M` responses classify as quota signals and the following one is a
success payload (with enough keys remaining), then processing one locality
makes exactly `M + 1` calls with key indices `key_idx, key_idx+1, ...,
key_idx+M` and appends exactly one record, built from the successful
response. -/
theorem rotation_scenario (cfg : Config) (loc : Locality) :
    ∀ M st (d : PyVal),
      (∀ j < M, isQuota (dataAt cfg (st.trace.length + j)) = true) →
      dataAt cfg (st.trace.length + M) = d →
      isSuccessPayload d = true →
      st.keyIdx + M < cfg.api_keys.length →
      (processLocality cfg loc st).results =
          st.results ++ [mkRecord loc (cfg.clock (1 + st.results.length)) d] ∧
      (processLocality cfg loc st).trace =
          st.trace ++ (List.range (M + 1)).map
            (fun j => (⟨loc.localityId, st.keyIdx + j⟩ : Call)) := by
  intro M
  induction M with
  | zero =>
      intro st d hq hd hs hk
      obtain ⟨hq2, hw⟩ := isSuccessPayload_spec hs
      have hd0 : dataAt cfg st.trace.length = d := by
        have : st.trace.length + 0 = st.trace.length := by omega
        rw [← this]
        exact hd
      have hq3 : isQuota (dataAt cfg st.trace.length) = false := by
        rw [hd0]; exact hq2
      have hw3 : hasWeatherSection (dataAt cfg st.trace.length) = true := by
        rw [hd0]; exact hw
      rw [processLocality_unfold,
        if_pos (by omega : st.keyIdx < cfg.api_keys.length)]
      rcases lt_or_ge ((st.callCount : Int) + 1) cfg.max_calls_per_key with hc | hc
      · rw [innerStep_success cfg loc st hq3 hw3 hc]
        refine ⟨by rw [hd0], ?_⟩
        show st.trace ++ [⟨loc.localityId, st.keyIdx⟩] = _
        rfl
      · rw [innerStep_success_ceiling cfg loc st hq3 hw3 hc]
        refine ⟨by rw [hd0], ?_⟩
        show st.trace ++ [⟨loc.localityId, st.keyIdx⟩] = _
        rfl
  | succ n ih =>
      intro st d hq hd hs hk
      have hq0 : isQuota (dataAt cfg st.trace.length) = true := by
        have h0 := hq 0 (by omega)
        have : st.trace.length + 0 = st.trace.length := by omega
        rwa [this] at h0
      rw [processLocality_unfold,
        if_pos (by omega : st.keyIdx < cfg.api_keys.length)]
      rw [innerStep_quota cfg loc st hq0]
      show (processLocality cfg loc
          ⟨st.keyIdx + 1, 0, st.results,
            st.trace ++ [⟨loc.localityId, st.keyIdx⟩]⟩).results = _ ∧
        (processLocality cfg loc
          ⟨st.keyIdx + 1, 0, st.results,
            st.trace ++ [⟨loc.localityId, st.keyIdx⟩]⟩).trace = _
      have hlen : (st.trace ++ [(⟨loc.localityId, st.keyIdx⟩ : Call)]).length =
          st.trace.length + 1 := by simp
      obtain ⟨hres, htr⟩ := ih
        ⟨st.keyIdx + 1, 0, st.results, st.trace ++ [⟨loc.localityId, st.keyIdx⟩]⟩ d
        (by
          intro j hj
          show isQuota (dataAt cfg
            ((st.trace ++ [(⟨loc.localityId, st.keyIdx⟩ : Call)]).length + j)) = true
          rw [hlen]
          have := hq (j + 1) (by omega)
          have harith : st.trace.length + (j + 1) = st.trace.length + 1 + j := by omega
          rwa [harith] at this)
        (by
          show dataAt cfg
            ((st.trace ++ [(⟨loc.localityId, st.keyIdx⟩ : Call)]).length + n) = d
          rw [hlen]
          have harith : st.trace.length + (n + 1) = st.trace.length + 1 + n := by omega
          rwa [harith] at hd)
        hs
        (by show st.keyIdx + 1 + n < cfg.api_keys.length; omega)
      refine ⟨hres, ?_⟩
      rw [htr]
      show (st.trace ++ [(⟨loc.localityId, st.keyIdx⟩ : Call)]) ++
          (List.range (n + 1)).map
            (fun j => (⟨loc.localityId, st.keyIdx + 1 + j⟩ : Call)) = _
      have hr : (List.range (n + 1 + 1)).map
            (fun j => (⟨loc.localityId, st.keyIdx + j⟩ : Call)) =
          (⟨loc.localityId, st.keyIdx⟩ : Call) ::
            (List.range (n + 1)).map
              (fun j => (⟨loc.localityId, st.keyIdx + 1 + j⟩ : Call)) := by
        rw [List.range_succ_eq_map, List.map_cons, List.map_map]
        refine congrArg₂ List.cons rfl ?_
        congr 1
        funext j
        show (⟨loc.localityId, st.keyIdx + (j + 1)⟩ : Call) =
          ⟨loc.localityId, st.keyIdx + 1 + j⟩
        have harith : st.keyIdx + (j + 1) = st.keyIdx + 1 + j := by omega
        rw [harith]
      rw [hr, List.append_assoc]
      rfl

/-! The ceiling scenario of claim C3: with the counter `C` short of the
ceiling and `C` localities each answered by a success payload, every call
uses the same key; the `C`-th record triggers the pre-emptive rotation, so
afterwards the key index has advanced by one and the counter is 0. -/
theorem ceiling_scenario (cfg : Config) :
    ∀ locs st,
      (∀ j < locs.length,
        isSuccessPayload (dataAt cfg (st.trace.length + j)) = true) →
      st.keyIdx < cfg.api_keys.length →
      (st.callCount : Int) + locs.length = cfg.max_calls_per_key →
      1 ≤ locs.length →
      (fetchLoop cfg locs st).keyIdx = st.keyIdx + 1 ∧
      (fetchLoop cfg locs st).callCount = 0 ∧
      (fetchLoop cfg locs st).results.length =
        st.results.length + locs.length ∧
      (fetchLoop cfg locs st).trace =
        st.trace ++ locs.map
          (fun l => (⟨l.localityId, st.keyIdx⟩ : Call)) := by
  intro locs
  induction locs with
  | nil =>
      intro st _ _ _ hn
      simp at hn
  | cons l rest ih =>
      intro st hs hk hc _
      have hs0 : isSuccessPayload (dataAt cfg st.trace.length) = true := by
        have h0 := hs 0 (by simp)
        have harith : st.trace.length + 0 = st.trace.length := by omega
        rwa [harith] at h0
      obtain ⟨hq0, hw0⟩ := isSuccessPayload_spec hs0
      rw [fetchLoop_cons]
      cases rest with
      | nil =>
          have hceil : (st.callCount : Int) + 1 ≥ cfg.max_calls_per_key := by
            simp only [List.length_cons, List.length_nil] at hc
            omega
          rw [processLocality_unfold, if_pos hk,
            innerStep_success_ceiling cfg l st hq0 hw0 hceil]
          by_cases hg : cfg.api_keys.length ≤ st.keyIdx + 1
          · rw [if_pos hg]
            refine ⟨rfl, rfl, by simp, by simp⟩
          · rw [if_neg hg, fetchLoop_nil]
            refine ⟨rfl, rfl, by simp, by simp⟩
      | cons l2 rest2 =>
          have hsmall : (st.callCount : Int) + 1 < cfg.max_calls_per_key := by
            simp only [List.length_cons] at hc
            have : (0 : Int) ≤ ((l2 :: rest2).length : Int) := by positivity
            simp only [List.length_cons] at this ⊢
            omega
          rw [processLocality_unfold, if_pos hk,
            innerStep_success cfg l st hq0 hw0 hsmall]
          rw [if_neg (by simpa using not_le.mpr hk)]
          have hlen : (st.trace ++ [(⟨l.localityId, st.keyIdx⟩ : Call)]).length =
              st.trace.length + 1 := by simp
          obtain ⟨ha, hb, hcnt, htr⟩ := ih
            ⟨st.keyIdx, st.callCount + 1,
              st.results ++ [mkRecord l (cfg.clock (1 + st.results.length))
                (dataAt cfg st.trace.length)],
              st.trace ++ [⟨l.localityId, st.keyIdx⟩]⟩
            (by
              intro j hj
              show isSuccessPayload (dataAt cfg
                ((st.trace ++ [(⟨l.localityId, st.keyIdx⟩ : Call)]).length + j)) = true
              rw [hlen]
              have h1 := hs (j + 1) (by
                simp only [List.length_cons] at hj ⊢
                omega)
              have harith : st.trace.length + (j + 1) = st.trace.length + 1 + j := by
                omega
              rwa [harith] at h1)
            hk
            (by
              show ((st.callCount + 1 : Nat) : Int) + ((l2 :: rest2).length : Nat) =
                cfg.max_calls_per_key
              simp only [List.length_cons] at hc ⊢
              push_cast at hc ⊢
              omega)
            (by simp)
          refine ⟨ha, hb, ?_, ?_⟩
          · rw [hcnt]
            simp only [List.length_append, List.length_cons, List.length_nil]
            omega
          · rw [htr]
            show (st.trace ++ [(⟨l.localityId, st.keyIdx⟩ : Call)]) ++ _ = _
            rw [List.append_assoc]
            rfl

/-! Shape of a successful run of `fetch_and_save`. -/

theorem fetch_and_save_ok (fs : String → Option CsvTable)
    (lp kp ob : String) (mx : Int) (tr : Nat → HttpResult)
    (ck : Nat → PyDateTime) (out : RunOutput)
    (h : fetch_and_save fs lp kp ob mx tr ck = .ok out) :
    ∃ locTable keyTable, fs lp = some locTable ∧ fs kp = some keyTable ∧
      out.final = fetchLoop
        ⟨keyTable.map (fun row => rowGet row "API_KEY" ""), mx, tr, ck⟩
        (locTable.map localityOfRow) initState ∧
      out.csvLines = csvLinesOf out.final.results ∧
      out.outFile = ob ++ "/" ++
        strftimeYmd (ck (1 + out.final.results.length)) ++
        "/weather_data_" ++ strftimeYmdHM (ck 0) ++ ".csv" := by
  unfold fetch_and_save load_csv at h
  cases hl : fs lp with
  | none =>
      rw [hl] at h
      cases h
  | some locT =>
      cases hk2 : fs kp with
      | none =>
          rw [hl, hk2] at h
          cases h
      | some keyT =>
          rw [hl, hk2] at h
          simp only [] at h
          cases h
          exact ⟨locT, keyT, rfl, rfl, rfl, rfl, rfl⟩

/-! CSV rendering facts. -/

theorem csvQuote_eq_self {s : String} (h : needsQuote s = false) :
    csvQuote s = s := by
  unfold csvQuote
  rw [h]
  rfl

theorem mapQuote_id :
    ∀ cells : List String, (∀ c ∈ cells, needsQuote c = false) →
      cells.map csvQuote = cells := by
  intro cells
  induction cells with
  | nil => intro _; rfl
  | cons c rest ih =>
      intro h
      rw [List.map_cons, csvQuote_eq_self (h c (by simp)),
        ih (fun x hx => h x (by simp [hx]))]

/-- A row of benign cells (no delimiter, quote or newline) is written as the
cells joined by commas, each cell verbatim. -/
theorem csvRowStr_benign (cells : List String)
    (h : ∀ c ∈ cells, needsQuote c = false) :
    csvRowStr cells = String.intercalate "," cells := by
  unfold csvRowStr
  rw [mapQuote_id cells h]

/-- Once the prefix `l₁` of the locality list exhausts the keys, the
remaining localities `l₂` are never processed: the loop result over
`l₁ ++ l₂` is the result over `l₁` alone. -/
theorem fetchLoop_append_exhausted (cfg : Config) :
    ∀ l₁ l₂ st, cfg.api_keys.length ≤ (fetchLoop cfg l₁ st).keyIdx →
      fetchLoop cfg (l₁ ++ l₂) st = fetchLoop cfg l₁ st := by
  intro l₁
  induction l₁ with
  | nil =>
      intro l₂ st h
      rw [fetchLoop_nil] at h ⊢
      show fetchLoop cfg l₂ st = st
      exact fetchLoop_exhausted cfg l₂ st h
  | cons a t ih =>
      intro l₂ st h
      rw [fetchLoop_cons] at h
      rw [List.cons_append, fetchLoop_cons, fetchLoop_cons]
      by_cases hg : cfg.api_keys.length ≤ (processLocality cfg a st).keyIdx
      · rw [if_pos hg, if_pos hg]
      · rw [if_neg hg] at h
        rw [if_neg hg, if_neg hg]
        exact ih l₂ (processLocality cfg a st) h

/-! Concrete fixtures used to instantiate the claim theorems at explicit
inputs. -/

/-- A 200 body with the weather section: temperature 21, humidity 60. -/
def okBody : PyVal :=
  .dict (.cons "locality_weather_data"
    (.dict (.cons "temperature" (.num 21)
      (.cons "humidity" (.num 60) .nil))) .nil)

/-- Two rate-limited responses, then successes. -/
def trRotate : Nat → HttpResult
  | 0 => .response 429 .pynone
  | 1 => .response 429 .pynone
  | _ => .response 200 okBody

def trSuccess : Nat → HttpResult := fun _ => .response 200 okBody

def trFail : Nat → HttpResult := fun _ => .response 404 .pynone

def trQuotaBody : Nat → HttpResult :=
  fun _ => .response 200 (.str "QUOTA_LIMIT_REACHED")

def tr429 : Nat → HttpResult := fun _ => .response 429 .pynone

/-- A clock whose first reading is just before midnight and whose later
readings fall on the next day. -/
def ckMidnight : Nat → PyDateTime := fun n =>
  if n = 0 then ⟨2025, 1, 1, 23, 59, 0⟩ else ⟨2025, 1, 2, 0, 0, 0⟩

def ckNoon : Nat → PyDateTime := fun _ => ⟨2025, 1, 1, 12, 0, 0⟩

def locL1 : Locality := ⟨"L1", "Downtown", "", ""⟩

def locL2 : Locality := ⟨"L2", "Uptown", "", ""⟩

def keysTable3 : CsvTable :=
  [[("API_KEY", "k1")], [("API_KEY", "k2")], [("API_KEY", "k3")]]

def keysTable1 : CsvTable := [[("API_KEY", "k1")]]

def locsTable1 : CsvTable := [[("localityId", "L1"), ("localityName", "Downtown")]]

def locsTable2 : CsvTable := [[("localityId", "L1")], [("localityId", "L2")]]

def fsStd : String → Option CsvTable
  | "locs.csv" => some locsTable1
  | "keys.csv" => some keysTable3
  | _ => none

def fsTwoLocsOneKey : String → Option CsvTable
  | "locs.csv" => some locsTable2
  | "keys.csv" => some keysTable1
  | _ => none

def fsEmptyLocs : String → Option CsvTable
  | "locs.csv" => some []
  | "keys.csv" => some keysTable1
  | _ => none

def fsNone : String → Option CsvTable := fun _ => none

def cfgRotate : Config := ⟨["k1", "k2", "k3"], 1000, trRotate, ckNoon⟩

def cfgCeil2 : Config := ⟨["k1", "k2"], 2, trSuccess, ckNoon⟩

def cfgFail : Config := ⟨["k1"], 1000, trFail, ckNoon⟩

def cfgQuotaBody : Config := ⟨["k1", "k2"], 1000, trQuotaBody, ckNoon⟩

/-! The claims. -/

/-- Claim C1: when the first `M` responses for a locality classify as
rate-limited and the next is a success payload (with enough keys left), the
loop advances the key index exactly `M` times before appending the single
record for that locality — the `M + 1` calls use key indices
`key_idx, …, key_idx + M` and the record is built from the successful
response; and across any whole run from the initial state the key indices
used by the calls are monotonically non-decreasing and bounded by the
current index, so a key is never used again once the index has advanced
past it. -/
theorem claim_C1 (cfg : Config) (loc : Locality) (st : LoopState) (M : Nat)
    (d : PyVal)
    (hq : ∀ j < M, isQuota (dataAt cfg (st.trace.length + j)) = true)
    (hd : dataAt cfg (st.trace.length + M) = d)
    (hs : isSuccessPayload d = true)
    (hk : st.keyIdx + M < cfg.api_keys.length) :
    (processLocality cfg loc st).results =
        st.results ++ [mkRecord loc (cfg.clock (1 + st.results.length)) d] ∧
    (processLocality cfg loc st).trace =
        st.trace ++ (List.range (M + 1)).map
          (fun j => (⟨loc.localityId, st.keyIdx + j⟩ : Call)) ∧
    ∀ locs, KeyMono (fetchLoop cfg locs initState) := by
  obtain ⟨h1, h2⟩ := rotation_scenario cfg loc M st d hq hd hs hk
  exact ⟨h1, h2,
    fun locs => fetchLoop_keyMono cfg locs initState initState_keyMono⟩

theorem claim_C1_witness :
    (processLocality cfgRotate locL1 initState).results =
      [⟨"L1", "Downtown", "", "", "2025-01-01T12:00:00",
        .num 21, .num 60, .pynone, .pynone, .pynone, .pynone⟩] ∧
    (processLocality cfgRotate locL1 initState).trace =
      [⟨"L1", 0⟩, ⟨"L1", 1⟩, ⟨"L1", 2⟩] := by
  have h := claim_C1 cfgRotate locL1 initState 2 okBody
    (by decide) rfl rfl (by decide)
  exact ⟨h.1, h.2.1⟩

/-- Claim C4: in any run with a positive ceiling, a locality whose response
classifies as a generic failure (`None` from a non-200/non-429 status or a
transport error) or as a 200 object without the weather section appends no
record and leaves the key index and the call counter unchanged — processing
it only adds the one traced call — and the outer loop moves on to the next
locality without key rotation. -/
theorem claim_C4 (cfg : Config) (pre : List Locality) (loc : Locality)
    (rest : List Locality) (d : PyVal)
    (hmax : 1 ≤ cfg.max_calls_per_key)
    (hk : (fetchLoop cfg pre initState).keyIdx < cfg.api_keys.length)
    (hd : dataAt cfg (fetchLoop cfg pre initState).trace.length = d)
    (hnd : isNoDataPayload d = true) :
    processLocality cfg loc (fetchLoop cfg pre initState) =
      ⟨(fetchLoop cfg pre initState).keyIdx,
       (fetchLoop cfg pre initState).callCount,
       (fetchLoop cfg pre initState).results,
       (fetchLoop cfg pre initState).trace ++
         [⟨loc.localityId, (fetchLoop cfg pre initState).keyIdx⟩]⟩ ∧
    fetchLoop cfg (loc :: rest) (fetchLoop cfg pre initState) =
      fetchLoop cfg rest
        ⟨(fetchLoop cfg pre initState).keyIdx,
         (fetchLoop cfg pre initState).callCount,
         (fetchLoop cfg pre initState).results,
         (fetchLoop cfg pre initState).trace ++
           [⟨loc.localityId, (fetchLoop cfg pre initState).keyIdx⟩]⟩ := by
  have hinv : CountInv cfg (fetchLoop cfg pre initState) := by
    apply fetchLoop_countInv cfg hmax pre initState
    show ((0 : Nat) : Int) < cfg.max_calls_per_key
    omega
  obtain ⟨hq, hw⟩ := isNoDataPayload_spec hnd
  have hq2 : isQuota (dataAt cfg (fetchLoop cfg pre initState).trace.length) =
      false := by rw [hd]; exact hq
  have hw2 : hasWeatherSection
      (dataAt cfg (fetchLoop cfg pre initState).trace.length) = false := by
    rw [hd]; exact hw
  have hmain : processLocality cfg loc (fetchLoop cfg pre initState) =
      ⟨(fetchLoop cfg pre initState).keyIdx,
       (fetchLoop cfg pre initState).callCount,
       (fetchLoop cfg pre initState).results,
       (fetchLoop cfg pre initState).trace ++
         [⟨loc.localityId, (fetchLoop cfg pre initState).keyIdx⟩]⟩ := by
    rw [processLocality_unfold, if_pos hk,
      innerStep_nodata cfg loc (fetchLoop cfg pre initState) hq2 hw2 hinv]
  refine ⟨hmain, ?_⟩
  rw [fetchLoop_cons, hmain, if_neg (show
    ¬ cfg.api_keys.length ≤ (fetchLoop cfg pre initState).keyIdx by omega)]

theorem claim_C4_witness :
    processLocality cfgFail locL1 (fetchLoop cfgFail [] initState) =
      ⟨0, 0, [], [⟨"L1", 0⟩]⟩ ∧
    fetchLoop cfgFail [locL1, locL2] (fetchLoop cfgFail [] initState) =
      fetchLoop cfgFail [locL2] ⟨0, 0, [], [⟨"L1", 0⟩]⟩ := by
  have h := claim_C4 cfgFail [] locL1 [locL2] PyVal.pynone
    (by decide) (by decide) rfl rfl
  exact ⟨h.1, h.2⟩

/-- Claim C9: an HTTP 200 response whose JSON body decodes to the string
QUOTA_LIMIT_REACHED is classified by `get_weather_data` exactly like a 429 —
the returned value equals the sentinel string, so the loop body takes the
rotation branch: it advances the key index, resets the counter, appends no
record, and `continue`s to retry the same locality with the next key. -/
theorem claim_C9 (cfg : Config) (loc : Locality) (st : LoopState)
    (hresp : cfg.transport st.trace.length =
      .response 200 (.str "QUOTA_LIMIT_REACHED")) :
    get_weather_data (.response 200 (.str "QUOTA_LIMIT_REACHED")) =
      .str "QUOTA_LIMIT_REACHED" ∧
    innerStep cfg loc st = .rotated
      ⟨st.keyIdx + 1, 0, st.results,
        st.trace ++ [⟨loc.localityId, st.keyIdx⟩]⟩ := by
  refine ⟨rfl, ?_⟩
  apply innerStep_quota
  show isQuota (dataAt cfg st.trace.length) = true
  rw [dataAt, hresp]
  rfl

theorem claim_C9_witness :
    get_weather_data (.response 200 (.str "QUOTA_LIMIT_REACHED")) =
      .str "QUOTA_LIMIT_REACHED" ∧
    innerStep cfgQuotaBody locL1 initState =
      .rotated ⟨1, 0, [], [⟨"L1", 0⟩]⟩ := by
  have h := claim_C9 cfgQuotaBody locL1 initState rfl
  exact ⟨h.1, h.2⟩

/-- Claim C10: the per-locality retry loop terminates on every input: each
iteration either breaks or strictly increments the key index, so fuel
`len(api_keys) - key_idx` already computes the loop's result (the `while`
stabilizes within that many iterations); and over a whole run the number of
HTTP calls is at most the number of localities plus the number of keys. -/
theorem claim_C10 (cfg : Config) :
    (∀ loc st st2, innerStep cfg loc st = .rotated st2 →
        st2.keyIdx = st.keyIdx + 1) ∧
    (∀ loc fuel st, cfg.api_keys.length - st.keyIdx ≤ fuel →
        runLocality cfg loc fuel st = processLocality cfg loc st) ∧
    (∀ locs, (fetchLoop cfg locs initState).trace.length ≤
        locs.length + cfg.api_keys.length) := by
  refine ⟨?_, ?_, ?_⟩
  · intro loc st st2 h
    exact congrArg LoopState.keyIdx (innerStep_rotated_eq cfg loc st st2 h)
  · intro loc fuel st h
    exact runLocality_stable cfg loc fuel st h
  · intro locs
    have h1 := fetchLoop_calls cfg locs initState
    have h2 := fetchLoop_keyIdx_le cfg locs initState
      (Nat.zero_le cfg.api_keys.length)
    have e1 : initState.keyIdx = 0 := rfl
    have e2 : initState.trace.length = 0 := rfl
    omega

theorem claim_C10_witness :
    runLocality cfgRotate locL1 5 initState =
      processLocality cfgRotate locL1 initState :=
  (claim_C10 cfgRotate).2.1 locL1 5 initState (by decide)

/-- Claim C3: with ceiling `C ≥ 1` and the counter at 0, after `C`
consecutive successful records obtained with one key (every call uses that
same key) the key index has advanced to the following key and the counter
is 0, so the next HTTP call — for any next locality, provided a following
key exists — uses the following key with the counter still 0 at that call;
moreover, on every iteration the counter is incremented only when a record
is appended, and every key advance resets the counter to 0. -/
theorem claim_C3 (cfg : Config) (C : Nat) (locs : List Locality)
    (st : LoopState)
    (hC : (C : Int) = cfg.max_calls_per_key) (hC1 : 1 ≤ C)
    (hlen : locs.length = C)
    (hs : ∀ j < C, isSuccessPayload (dataAt cfg (st.trace.length + j)) = true)
    (hk : st.keyIdx < cfg.api_keys.length)
    (hcnt : st.callCount = 0) :
    (fetchLoop cfg locs st).keyIdx = st.keyIdx + 1 ∧
    (fetchLoop cfg locs st).callCount = 0 ∧
    (fetchLoop cfg locs st).results.length = st.results.length + C ∧
    (fetchLoop cfg locs st).trace =
      st.trace ++ locs.map (fun l => (⟨l.localityId, st.keyIdx⟩ : Call)) ∧
    (st.keyIdx + 1 < cfg.api_keys.length → ∀ loc2, ∃ tl,
      (processLocality cfg loc2 (fetchLoop cfg locs st)).trace =
        (fetchLoop cfg locs st).trace ++
          (⟨loc2.localityId, st.keyIdx + 1⟩ : Call) :: tl) ∧
    (∀ loc0 st0,
      ((innerStep cfg loc0 st0).state.keyIdx ≠ st0.keyIdx →
        (innerStep cfg loc0 st0).state.callCount = 0) ∧
      ((innerStep cfg loc0 st0).state.callCount = st0.callCount + 1 →
        (innerStep cfg loc0 st0).state.results.length =
          st0.results.length + 1)) := by
  obtain ⟨h1, h2, h3, h4⟩ := ceiling_scenario cfg locs st
    (by rw [hlen]; exact hs)
    hk
    (by rw [hcnt, hlen]; push_cast; omega)
    (by omega)
  refine ⟨h1, h2, by rw [h3, hlen], h4, ?_, ?_⟩
  · intro hk2 loc2
    obtain ⟨tl, htl⟩ := processLocality_trace_head cfg loc2
      (fetchLoop cfg locs st) (by rw [h1]; exact hk2)
    exact ⟨tl, by rw [htl, h1]⟩
  · intro loc0 st0
    exact ⟨innerStep_advance_resets cfg loc0 st0,
      innerStep_count_incr cfg loc0 st0⟩

theorem claim_C3_witness :
    (fetchLoop cfgCeil2 [locL1, locL2] initState).keyIdx = 1 ∧
    (fetchLoop cfgCeil2 [locL1, locL2] initState).callCount = 0 ∧
    (fetchLoop cfgCeil2 [locL1, locL2] initState).results.length = 2 ∧
    (fetchLoop cfgCeil2 [locL1, locL2] initState).trace =
      [⟨"L1", 0⟩, ⟨"L2", 0⟩] := by
  have h := claim_C3 cfgCeil2 2 [locL1, locL2] initState
    (by decide) (by decide) rfl (by decide) (by decide) rfl
  exact ⟨h.1, h.2.1, h.2.2.1, h.2.2.2.1⟩

/-- Claim C2: once the key index has advanced past the last available key
after some prefix `l₁` of the localities, the remaining localities `l₂`
cause no further HTTP calls (the final state equals the state after `l₁`,
so the call trace is unchanged), and the run still completes with `.ok`,
writing the CSV of exactly the records collected before exhaustion. -/
theorem claim_C2 (fs : String → Option CsvTable) (lp kp ob : String)
    (mx : Int) (tr : Nat → HttpResult) (ck : Nat → PyDateTime)
    (locT keyT : CsvTable) (l₁ l₂ : List Locality) (out : RunOutput)
    (cfg : Config)
    (hcfg : cfg = ⟨keyT.map (fun row => rowGet row "API_KEY" ""), mx, tr, ck⟩)
    (hfs1 : fs lp = some locT) (hfs2 : fs kp = some keyT)
    (hsplit : locT.map localityOfRow = l₁ ++ l₂)
    (hex : cfg.api_keys.length ≤ (fetchLoop cfg l₁ initState).keyIdx)
    (hok : fetch_and_save fs lp kp ob mx tr ck = .ok out) :
    out.final = fetchLoop cfg l₁ initState ∧
    out.final.trace = (fetchLoop cfg l₁ initState).trace ∧
    out.final.results = (fetchLoop cfg l₁ initState).results ∧
    out.csvLines = csvLinesOf (fetchLoop cfg l₁ initState).results := by
  obtain ⟨lt, kt, h1, h2, h3, h4, _⟩ :=
    fetch_and_save_ok fs lp kp ob mx tr ck out hok
  have hlt : lt = locT := Option.some.inj (h1.symm.trans hfs1)
  have hkt : kt = keyT := Option.some.inj (h2.symm.trans hfs2)
  subst hlt hkt
  rw [← hcfg] at h3
  rw [hsplit] at h3
  have hfinal : out.final = fetchLoop cfg l₁ initState := by
    rw [h3]
    exact fetchLoop_append_exhausted cfg l₁ l₂ initState hex
  refine ⟨hfinal, by rw [hfinal], by rw [hfinal], by rw [h4, hfinal]⟩

theorem claim_C2_witness :
    (fetch_and_save fsTwoLocsOneKey "locs.csv" "keys.csv" "out" 1000
        tr429 ckNoon = .ok
      ⟨"out/20250101/weather_data_20250101_1200.csv", [""],
        ⟨1, 0, [], [⟨"L1", 0⟩]⟩⟩) ∧
    (⟨1, 0, [], [⟨"L1", 0⟩]⟩ : LoopState).trace = [⟨"L1", 0⟩] ∧
    (⟨1, 0, [], [⟨"L1", 0⟩]⟩ : LoopState).results = [] ∧
    (⟨"out/20250101/weather_data_20250101_1200.csv", [""],
        ⟨1, 0, [], [⟨"L1", 0⟩]⟩⟩ : RunOutput).csvLines = csvLinesOf [] := by
  have h := claim_C2 fsTwoLocsOneKey "locs.csv" "keys.csv" "out" 1000
    tr429 ckNoon locsTable2 keysTable1
    [⟨"L1", "", "", ""⟩] [⟨"L2", "", "", ""⟩]
    ⟨"out/20250101/weather_data_20250101_1200.csv", [""],
      ⟨1, 0, [], [⟨"L1", 0⟩]⟩⟩
    ⟨["k1"], 1000, tr429, ckNoon⟩
    rfl rfl rfl rfl (by decide) rfl
  exact ⟨rfl, h.2.1, h.2.2.1, h.2.2.2⟩

/-- Claim C5: a run that collects `N ≥ 1` records writes a header line
followed by one line per record in collection order — `N + 1` lines in all.
The header is exactly the fixed column list of §6 joined by commas, and a
record line is the record's cell strings joined by commas, each cell
written verbatim; this is stated for cells free of the csv metacharacters
(delimiter, quote, CR, LF), outside of which the csv module's QUOTE_MINIMAL
escaping would wrap the cell. -/
theorem claim_C5 (fs : String → Option CsvTable) (lp kp ob : String)
    (mx : Int) (tr : Nat → HttpResult) (ck : Nat → PyDateTime)
    (out : RunOutput) (N : Nat)
    (hok : fetch_and_save fs lp kp ob mx tr ck = .ok out)
    (hN : out.final.results.length = N) (hN1 : 1 ≤ N)
    (hben : ∀ r ∈ out.final.results, ∀ c ∈ recordCells r,
      needsQuote c = false) :
    out.csvLines.length = N + 1 ∧
    out.csvLines = String.intercalate "," recordFieldOrder ::
      out.final.results.map
        (fun r => String.intercalate "," (recordCells r)) ∧
    String.intercalate "," recordFieldOrder =
      "Station ID,Locality Name,Latitude,Longitude,Observation Datetime,Temperature,Humidity,Wind Speed,Wind Direction,Rain Intensity,Total Rainfall" := by
  obtain ⟨lt, kt, _, _, _, h4, _⟩ :=
    fetch_and_save_ok fs lp kp ob mx tr ck out hok
  have hfn : fieldnamesOf out.final.results = recordFieldOrder := by
    cases hr : out.final.results with
    | nil => rw [hr] at hN; simp at hN; omega
    | cons a t => rfl
  have hlines : out.csvLines = String.intercalate "," recordFieldOrder ::
      out.final.results.map
        (fun r => String.intercalate "," (recordCells r)) := by
    rw [h4]
    unfold csvLinesOf
    rw [hfn]
    exact congrArg₂ List.cons
      (csvRowStr_benign recordFieldOrder (by decide))
      (List.map_congr_left
        (fun r hr => csvRowStr_benign (recordCells r) (hben r hr)))
  refine ⟨?_, hlines, by decide⟩
  rw [hlines]
  simp only [List.length_cons, List.length_map]
  omega

theorem claim_C5_witness :
    (fetch_and_save fsStd "locs.csv" "keys.csv" "out" 1000 trSuccess ckNoon
      = .ok
      ⟨"out/20250101/weather_data_20250101_1200.csv",
       ["Station ID,Locality Name,Latitude,Longitude,Observation Datetime,Temperature,Humidity,Wind Speed,Wind Direction,Rain Intensity,Total Rainfall",
        "L1,Downtown,,,2025-01-01T12:00:00,21,60,,,,"],
       ⟨0, 1,
        [⟨"L1", "Downtown", "", "", "2025-01-01T12:00:00",
          .num 21, .num 60, .pynone, .pynone, .pynone, .pynone⟩],
        [⟨"L1", 0⟩]⟩⟩) ∧
    (["Station ID,Locality Name,Latitude,Longitude,Observation Datetime,Temperature,Humidity,Wind Speed,Wind Direction,Rain Intensity,Total Rainfall",
      "L1,Downtown,,,2025-01-01T12:00:00,21,60,,,,"] : List String).length =
      1 + 1 := by
  have h := claim_C5 fsStd "locs.csv" "keys.csv" "out" 1000 trSuccess ckNoon
    ⟨"out/20250101/weather_data_20250101_1200.csv",
     ["Station ID,Locality Name,Latitude,Longitude,Observation Datetime,Temperature,Humidity,Wind Speed,Wind Direction,Rain Intensity,Total Rainfall",
      "L1,Downtown,,,2025-01-01T12:00:00,21,60,,,,"],
     ⟨0, 1,
      [⟨"L1", "Downtown", "", "", "2025-01-01T12:00:00",
        .num 21, .num 60, .pynone, .pynone, .pynone, .pynone⟩],
      [⟨"L1", 0⟩]⟩⟩ 1
    rfl rfl (by omega) (by decide)
  exact ⟨rfl, h.1⟩

/-- Claim C6: when the locality file or the API-key file is missing, the run
fails with the loader's missing-file error for that path, and no network
activity happens — the outcome does not depend on the transport or clock
oracles at all. -/
theorem claim_C6 (fs : String → Option CsvTable) (lp kp ob : String)
    (mx : Int) (tr : Nat → HttpResult) (ck : Nat → PyDateTime)
    (h : fs lp = none ∨ fs kp = none) :
    (∃ p, (p = lp ∨ p = kp) ∧
      fetch_and_save fs lp kp ob mx tr ck =
        .error ("CSV file not found: " ++ p)) ∧
    (∀ tr2 ck2, fetch_and_save fs lp kp ob mx tr2 ck2 =
      fetch_and_save fs lp kp ob mx tr ck) := by
  cases hl : fs lp with
  | none =>
      constructor
      · refine ⟨lp, Or.inl rfl, ?_⟩
        unfold fetch_and_save load_csv
        rw [hl]
      · intro tr2 ck2
        show fetch_and_save fs lp kp ob mx tr2 ck2 = _
        unfold fetch_and_save load_csv
        rw [hl]
  | some locT =>
      cases hk2 : fs kp with
      | none =>
          constructor
          · refine ⟨kp, Or.inr rfl, ?_⟩
            unfold fetch_and_save load_csv
            rw [hl, hk2]
          · intro tr2 ck2
            show fetch_and_save fs lp kp ob mx tr2 ck2 = _
            unfold fetch_and_save load_csv
            rw [hl, hk2]
      | some keyT =>
          rw [hl, hk2] at h
          rcases h with h | h <;> cases h

theorem claim_C6_witness :
    fetch_and_save fsNone "locs.csv" "keys.csv" "out" 1000 trSuccess ckNoon =
      fetch_and_save fsNone "locs.csv" "keys.csv" "out" 1000 tr429 ckMidnight :=
  (claim_C6 fsNone "locs.csv" "keys.csv" "out" 1000 tr429 ckMidnight
    (Or.inl rfl)).2 trSuccess ckNoon

/-- Claim C8: a run that collects zero records — for instance one ended at
once by key exhaustion — still writes the CSV file, and it consists of a
single header row with no columns (an empty line, since the field-name list
taken from `results[0]` is empty). -/
theorem claim_C8 (fs : String → Option CsvTable) (lp kp ob : String)
    (mx : Int) (tr : Nat → HttpResult) (ck : Nat → PyDateTime)
    (out : RunOutput)
    (hok : fetch_and_save fs lp kp ob mx tr ck = .ok out)
    (hz : out.final.results = []) :
    out.csvLines = [csvRowStr (fieldnamesOf [])] ∧
    csvRowStr (fieldnamesOf []) = "" ∧
    out.csvLines.length = 1 := by
  obtain ⟨lt, kt, _, _, _, h4, _⟩ :=
    fetch_and_save_ok fs lp kp ob mx tr ck out hok
  rw [h4, hz]
  exact ⟨rfl, rfl, rfl⟩

theorem claim_C8_witness :
    (fetch_and_save fsTwoLocsOneKey "locs.csv" "keys.csv" "out" 1000
        tr429 ckNoon = .ok
      ⟨"out/20250101/weather_data_20250101_1200.csv", [""],
        ⟨1, 0, [], [⟨"L1", 0⟩]⟩⟩) ∧
    (⟨"out/20250101/weather_data_20250101_1200.csv", [""],
        ⟨1, 0, [], [⟨"L1", 0⟩]⟩⟩ : RunOutput).csvLines =
      [csvRowStr (fieldnamesOf [])] ∧
    csvRowStr (fieldnamesOf []) = "" := by
  have h := claim_C8 fsTwoLocsOneKey "locs.csv" "keys.csv" "out" 1000
    tr429 ckNoon
    ⟨"out/20250101/weather_data_20250101_1200.csv", [""],
      ⟨1, 0, [], [⟨"L1", 0⟩]⟩⟩ rfl rfl
  exact ⟨rfl, h.1, h.2.1⟩

/-- Middle-segment cancellation for string appends. -/
theorem stringAppendCancel (p a b s : String) (h : p ++ a ++ s = p ++ b ++ s) :
    a = b := by
  have h2 := congrArg String.data h
  simp only [String.data_append] at h2
  rw [List.append_assoc, List.append_assoc] at h2
  have h3 := List.append_cancel_left h2
  have h4 := List.append_cancel_right h3
  cases a
  cases b
  exact congrArg String.mk h4

/-- Claim C7 as stated is false: the filename timestamp is taken from the
run-start `datetime.now()` (line 69 of fetch.py), but the date directory is
taken from a fresh `datetime.now()` after the loop (line 116). A run that
starts at 23:59 on 2025-01-01 and writes at 00:00 on 2025-01-02 produces
`out/20250102/weather_data_20250101_2359.csv`, not the claimed
`{base}/{start date}/weather_data_{start stamp}.csv`. -/
theorem claim_C7_counterexample :
    fetch_and_save fsEmptyLocs "locs.csv" "keys.csv" "out" 1000 trSuccess
        ckMidnight =
      .ok ⟨"out/20250102/weather_data_20250101_2359.csv", [""], initState⟩ ∧
    "out/20250102/weather_data_20250101_2359.csv" ≠
      "out" ++ "/" ++ strftimeYmd (ckMidnight 0) ++ "/weather_data_" ++
        strftimeYmdHM (ckMidnight 0) ++ ".csv" :=
  ⟨rfl, by decide⟩

/-- Claim C7 (amended): the output path is
`{output_base_dir}/{YYYYMMDD}/weather_data_{YYYYMMDD_HHMM}.csv` where the
filename timestamp comes from the run-start clock reading and the
directory's date component comes from the clock reading taken after the
loop, when the file is written (the two coincide whenever the run does not
cross midnight); and for a fixed directory date, runs whose start-minute
stamps differ produce distinct files in the same directory. -/
theorem claim_C7 (fs : String → Option CsvTable) (lp kp ob : String)
    (mx : Int) (tr : Nat → HttpResult) (ck : Nat → PyDateTime)
    (out : RunOutput)
    (hok : fetch_and_save fs lp kp ob mx tr ck = .ok out) :
    out.outFile = ob ++ "/" ++
      strftimeYmd (ck (1 + out.final.results.length)) ++
      "/weather_data_" ++ strftimeYmdHM (ck 0) ++ ".csv" ∧
    (∀ d a b : String, a ≠ b →
      ob ++ "/" ++ d ++ "/weather_data_" ++ a ++ ".csv" ≠
        ob ++ "/" ++ d ++ "/weather_data_" ++ b ++ ".csv") := by
  obtain ⟨lt, kt, _, _, _, _, h5⟩ :=
    fetch_and_save_ok fs lp kp ob mx tr ck out hok
  refine ⟨h5, ?_⟩
  intro d a b hne heq
  exact hne (stringAppendCancel (ob ++ "/" ++ d ++ "/weather_data_")
    a b ".csv" heq)

theorem claim_C7_witness :
    (⟨"out/20250102/weather_data_20250101_2359.csv", [""], initState⟩ :
        RunOutput).outFile =
      "out" ++ "/" ++
        strftimeYmd (ckMidnight (1 + initState.results.length)) ++
        "/weather_data_" ++ strftimeYmdHM (ckMidnight 0) ++ ".csv" := by
  have h := claim_C7 fsEmptyLocs "locs.csv" "keys.csv" "out" 1000 trSuccess
    ckMidnight
    ⟨"out/20250102/weather_data_20250101_2359.csv", [""], initState⟩ rfl
  exact h.1

end WeatherUnion
